import Mathlib

set_option maxRecDepth 8000

deriving instance DecidableEq for Except

namespace Toolkit

/-!
Verification of the leciel-Toolkit repository.

The repository ships two areas of behaviour:

* the YouTube chapter conversion pipeline (format detection, marker
  parsing, timecode arithmetic, normalization, chapter operations and
  rendering).  Its implementation files (`app/utils/parsers.js`,
  `app/utils/chapter-operations.js`, `app/main.js`) are not part of the
  source snapshot, so the pipeline is modelled here from the design
  document, definition by definition;

* the QR reading tool (`qr-reader/qr-scanner.js`), which is present in
  the snapshot and is embedded directly.

All text processing is done over `List Char` with structural recursion
so that every definition evaluates inside the kernel.
-/

/-! ## Error taxonomy (modelled from the spec, section 7) -/

/-- Modelled from the spec: the `ParseError` taxonomy of section 7 for the
missing parser sources. -/
inductive ParseError
  | UnrecognizedFormat
  | EmptyOrStructurallyInvalid
  | InvalidTimecode
deriving DecidableEq

/-- Modelled from the spec: the `NormalizationError` taxonomy of section 7. -/
inductive NormalizationError
  | NoValidChapters
deriving DecidableEq

/-- Modelled from the spec: the `OperationError` taxonomy of section 7 for the
missing chapter-operations source. -/
inductive OperationError
  | NotFound
  | DuplicateTime
deriving DecidableEq

/-- Modelled from the spec: the `FormatError` taxonomy of section 7. -/
inductive FormatError
  | TooFewChapters
deriving DecidableEq

/-- Modelled from the spec: the closed tag set `FormatKind` of section 3. -/
inductive FormatKind
  | DaVinciResolveEDL
  | PremiereEDL
  | PremiereMarkerText
  | PremiereMarkerCSV
deriving DecidableEq

/-! ## Character-level text helpers -/

/-- Character classifier for the blank characters that the tool's line
handling ignores. -/
def isSpaceChar (c : Char) : Bool :=
  c = ' ' || c = '\t' || c = '\r'

/-- Digit test over a single character. -/
def isDigitChar (c : Char) : Bool :=
  '0' ≤ c && c ≤ '9'

/-- Accumulator loop reading a run of decimal digits. -/
def digitsToNatAux (acc : Nat) : List Char → Option Nat
  | [] => some acc
  | c :: rest =>
    if isDigitChar c then digitsToNatAux (acc * 10 + (c.toNat - '0'.toNat)) rest
    else none

/-- Numeric value of a nonempty all-digit character list, `none` otherwise. -/
def digitsToNat : List Char → Option Nat
  | [] => none
  | c :: rest => digitsToNatAux 0 (c :: rest)

/-- Splits a character list on a separator character; always returns at
least one (possibly empty) group. -/
def splitOnChar (sep : Char) : List Char → List (List Char)
  | [] => [[]]
  | c :: rest =>
    let r := splitOnChar sep rest
    if c = sep then [] :: r
    else
      match r with
      | [] => [[c]]
      | grp :: gs => (c :: grp) :: gs

/-- Removes blank characters from both ends of a line. -/
def trimChars (l : List Char) : List Char :=
  ((l.dropWhile isSpaceChar).reverse.dropWhile isSpaceChar).reverse

/-- Boolean test for a list of characters beginning with a given pattern. -/
def leadsWith : List Char → List Char → Bool
  | [], _ => true
  | _ :: _, [] => false
  | p :: ps, c :: cs => p == c && leadsWith ps cs

/-- Splits the input text into lines on newline characters. -/
def toLines (text : String) : List (List Char) :=
  splitOnChar '\n' text.data

/-! ## Timecode model (modelled from the spec, section 4.1; the source
file `app/utils/parsers.js` is absent from the snapshot) -/

/-- Modelled from the spec: field extraction for `HH:MM:SS:FF` and
`HH:MM:SS;FF` timecodes; the drop-frame separator `;` is mapped to `:`
before splitting, so both separators are treated identically. -/
def splitTimecodeFields (chars : List Char) : Option (Nat × Nat × Nat × Nat) :=
  let normalized := chars.map (fun c => if c = ';' then ':' else c)
  match (splitOnChar ':' normalized).map digitsToNat with
  | [some h, some m, some s, some f] => some (h, m, s, f)
  | _ => none

/-- Division of naturals rounded to the nearest integer, halves up. -/
def roundedDiv (a b : Nat) : Nat :=
  (2 * a + b) / (2 * b)

/-- Modelled from the spec: conversion of a frame timecode to milliseconds
via `((H*3600+M*60+S)*frameRate + F) * 1000 / frameRate`, rounded to the
nearest millisecond. -/
def frameTimecodeToMs (h m s f rate : Nat) : Nat :=
  roundedDiv (((h * 3600 + m * 60 + s) * rate + f) * 1000) rate

/-- Modelled from the spec: `parseFrameTimecode(text, frameRate)` accepts
`HH:MM:SS:FF` or `HH:MM:SS;FF`, validates `FF < frameRate`, and converts
to milliseconds. -/
def parseFrameTimecode (text : String) (frameRate : Nat) : Except ParseError Nat :=
  match splitTimecodeFields text.data with
  | some (h, m, s, f) =>
    if f < frameRate then .ok (frameTimecodeToMs h m s f frameRate)
    else .error .InvalidTimecode
  | none => .error .InvalidTimecode

/-- Modelled from the spec: `parseDecimalTimecode(text)` accepts
`HH:MM:SS.mmm` or `HH:MM:SS` with direct millisecond arithmetic. -/
def parseDecimalTimecode (text : String) : Except ParseError Nat :=
  match splitOnChar ':' text.data with
  | [hs, ms, rest] =>
    match digitsToNat hs, digitsToNat ms with
    | some h, some m =>
      match splitOnChar '.' rest with
      | [ss] =>
        match digitsToNat ss with
        | some s => .ok ((h * 3600 + m * 60 + s) * 1000)
        | none => .error .InvalidTimecode
      | [ss, frac] =>
        match digitsToNat ss, digitsToNat frac with
        | some s, some milli =>
          if frac.length = 3 then .ok ((h * 3600 + m * 60 + s) * 1000 + milli)
          else .error .InvalidTimecode
        | _, _ => .error .InvalidTimecode
      | _ => .error .InvalidTimecode
    | _, _ => .error .InvalidTimecode
  | _ => .error .InvalidTimecode

/-- Decimal digit characters of a natural number. -/
def natChars (n : Nat) : List Char :=
  Nat.toDigits 10 n

/-- Zero-pads a field to two digits; wider values keep all their digits. -/
def twoDigits (n : Nat) : List Char :=
  if n < 10 then '0' :: natChars n else natChars n

/-- Modelled from the spec: `toDisplayString(Timecode)` truncates the
sub-second remainder and zero-pads hours, minutes and seconds to two
digits. -/
def toDisplayString (ms : Nat) : String :=
  let totalSecs := ms / 1000
  ⟨twoDigits (totalSecs / 3600) ++ ':' ::
    twoDigits (totalSecs % 3600 / 60) ++ ':' :: twoDigits (totalSecs % 60)⟩

/-! ## Data model (modelled from the spec, section 3) -/

/-- Modelled from the spec: transient `RawMarkerEntry`, produced by a
parser and consumed by the normalizer. -/
structure RawMarkerEntry where
  timecodeText : String
  label : String
  sourceLineNumber : Nat
deriving DecidableEq

/-- Raw entry whose timecode has been resolved to milliseconds by the
normalizer's first step. -/
structure ResolvedEntry where
  timeMs : Nat
  label : String
  sourceLineNumber : Nat
deriving DecidableEq

/-- Modelled from the spec: a `Chapter` with a stable identifier, a
start time in milliseconds and a label. -/
structure Chapter where
  id : Nat
  startTimeMs : Nat
  label : String
deriving DecidableEq

/-- Modelled from the spec: a `ChapterList` is an ordered sequence of
chapters. -/
abbrev ChapterList := List Chapter

/-- Modelled from the spec: the `{ entries, warnings }` record that every
parser returns. -/
structure ParseResult where
  entries : List RawMarkerEntry
  warnings : List String
deriving DecidableEq

/-! ## Ordering machinery shared by the normalizer and the chapter
operations -/

/-- Comparison of two values by a time projection. -/
@[reducible]
def timeLE {α : Type} (time : α → Nat) (a b : α) : Prop :=
  time a ≤ time b

instance {α : Type} (time : α → Nat) : DecidableRel (timeLE time) :=
  fun _ _ => Nat.decLe _ _

instance {α : Type} (time : α → Nat) : IsTotal α (timeLE time) :=
  ⟨fun _ _ => Nat.le_total _ _⟩

instance {α : Type} (time : α → Nat) : IsTrans α (timeLE time) :=
  ⟨fun _ _ _ h h2 => Nat.le_trans h h2⟩

/-- Strict comparison of two chapters by start time. -/
def chLT (a b : Chapter) : Prop :=
  a.startTimeMs < b.startTimeMs

instance : DecidableRel chLT :=
  fun _ _ => Nat.decLt _ _

/-- Modelled from the spec: the stable sort of entries by resolved time
(normalizer step 2); insertion sort keeps the original order of entries
with equal times. -/
def sortByTime {α : Type} (time : α → Nat) (l : List α) : List α :=
  List.insertionSort (timeLE time) l

/-- Modelled from the spec: time-origin correction (normalizer step 3) —
the first entry's time is subtracted from every entry's time. -/
def applyTimeOrigin {α : Type} (time : α → Nat) (sub : α → Nat → α) :
    List α → List α
  | [] => []
  | c :: rest => (c :: rest).map (fun x => sub x (time c))

/-- Modelled from the spec: deduplication loop (normalizer step 4) — an
entry whose time equals a previously kept entry's time is dropped and its
label discarded; the accumulator carries the times kept so far. -/
def dedupByTimeAux {α : Type} (time : α → Nat) : List Nat → List α → List α
  | _, [] => []
  | kept, c :: rest =>
    if time c ∈ kept then dedupByTimeAux time kept rest
    else c :: dedupByTimeAux time (time c :: kept) rest

/-- Modelled from the spec: first-wins deduplication by exact millisecond
time. -/
def dedupByTime {α : Type} (time : α → Nat) (l : List α) : List α :=
  dedupByTimeAux time [] l

/-- Modelled from the spec: one full pass of normalizer steps 2 to 4 —
stable sort by time, time-origin correction, first-wins deduplication. -/
def normalizePass {α : Type} (time : α → Nat) (sub : α → Nat → α)
    (l : List α) : List α :=
  dedupByTime time (applyTimeOrigin time sub (sortByTime time l))

/-- Subtraction of a time offset from a resolved entry, clamped at 0. -/
def entrySub (e : ResolvedEntry) (o : Nat) : ResolvedEntry :=
  { e with timeMs := e.timeMs - o }

/-- Subtraction of a time offset from a chapter, clamped at 0. -/
def chapterSub (c : Chapter) (o : Nat) : Chapter :=
  { c with startTimeMs := c.startTimeMs - o }

/-! ## Chapter normalizer (modelled from the spec, section 4.3) -/

/-- Modelled from the spec: placeholder labelling (normalizer step 5) —
an empty or whitespace-only label becomes `"Chapter N"` for the 1-based
position `N`. -/
def chapterLabel (lbl : String) (pos : Nat) : String :=
  if (trimChars lbl.data).isEmpty then ⟨"Chapter ".data ++ natChars pos⟩
  else lbl

/-- Modelled from the spec: identifier assignment (normalizer step 5) —
surviving entries receive fresh identifiers from a counter, together with
their final labels. -/
def assignChapters : Nat → List ResolvedEntry → List Chapter
  | _, [] => []
  | i, e :: rest => ⟨i, e.timeMs, chapterLabel e.label i⟩ :: assignChapters (i + 1) rest

/-- Modelled from the spec: normalizer steps 2 to 4 — stable sort by
resolved time, time-origin correction, first-wins deduplication. -/
def normalizeCore (entries : List ResolvedEntry) : List ResolvedEntry :=
  normalizePass ResolvedEntry.timeMs entrySub entries

/-- Modelled from the spec: the full normalizer over resolved entries; an
empty surviving list is the `NoValidChapters` failure. -/
def normalizeEntries (entries : List ResolvedEntry) :
    Except NormalizationError ChapterList :=
  match normalizeCore entries with
  | [] => .error .NoValidChapters
  | e :: rest => .ok (assignChapters 1 (e :: rest))

/-! ## Chapter operations (modelled from the spec, section 4.4; the
source file `app/utils/chapter-operations.js` is absent from the
snapshot) -/

/-- Membership test of a start time in a chapter list. -/
def hasTime (L : ChapterList) (t : Nat) : Bool :=
  L.any (fun c => c.startTimeMs == t)

/-- Next value of the monotonically increasing identifier counter. -/
def freshId (L : ChapterList) : Nat :=
  (L.map Chapter.id).foldr Nat.max 0 + 1

/-- Modelled from the spec: `add(atTimeMs, label)` rejects a colliding
time with `DuplicateTime`, leaving the list unchanged, and otherwise
inserts the new chapter at its sorted position. -/
def add (L : ChapterList) (atTimeMs : Nat) (lbl : String) :
    Except OperationError Chapter × ChapterList :=
  if hasTime L atTimeMs then (.error .DuplicateTime, L)
  else
    let c : Chapter := ⟨freshId L, atTimeMs, lbl⟩
    (.ok c, List.orderedInsert (timeLE Chapter.startTimeMs) c L)

/-- Modelled from the spec: `normalize()` on a chapter list — on-demand
re-run of re-sort, re-zero and dedup. -/
def normalizeOp (L : ChapterList) : ChapterList :=
  normalizePass Chapter.startTimeMs chapterSub L

/-! ## Output formatter (modelled from the spec, section 4.5) -/

/-- Rendered text of one chapter line. -/
def renderLine (c : Chapter) : String :=
  ⟨(toDisplayString c.startTimeMs).data ++ ' ' :: c.label.data⟩

/-- Newline join of rendered lines at the character level. -/
def joinLinesChars : List String → List Char
  | [] => []
  | [l] => l.data
  | l :: rest => l.data ++ '\n' :: joinLinesChars rest

/-- Newline join of rendered lines. -/
def joinLines (ls : List String) : String :=
  ⟨joinLinesChars ls⟩

/-- Modelled from the spec: `render(ChapterList)` — one `HH:MM:SS label`
line per chapter, newline-joined, rejecting lists of fewer than two
chapters with `TooFewChapters`. -/
def render (L : ChapterList) : Except FormatError String :=
  if L.length < 2 then .error .TooFewChapters
  else .ok (joinLines (L.map renderLine))

/-! ## Format detectors and parsers (modelled from the spec, section 4.2;
the source file `app/utils/parsers.js` is absent from the snapshot) -/

/-- Test for a line that is blank after trimming. -/
def isBlankLine (l : List Char) : Bool :=
  (trimChars l).isEmpty

/-- Test for a comment line (leading `#` or `//`) in marker text. -/
def isCommentLine (l : List Char) : Bool :=
  leadsWith "#".data l || leadsWith "//".data l

/-- Test for a token shaped like a four-field frame timecode. -/
def isFrameTimecodeToken (l : List Char) : Bool :=
  (splitTimecodeFields l).isSome

/-- Test for a token accepted by the decimal timecode reader. -/
def isDecimalTimecodeToken (l : List Char) : Bool :=
  match parseDecimalTimecode ⟨l⟩ with
  | .ok _ => true
  | .error _ => false

/-- Accumulator loop splitting a trimmed line at its first blank run into
a leading token and a trailing trimmed remainder. -/
def splitFirstSpaceAux (acc : List Char) : List Char → List Char × List Char
  | [] => (acc.reverse, [])
  | c :: rest =>
    if isSpaceChar c then (acc.reverse, trimChars rest)
    else splitFirstSpaceAux (c :: acc) rest

/-- Splits a line at the first run of whitespace. -/
def splitFirstSpace (l : List Char) : List Char × List Char :=
  splitFirstSpaceAux [] l

/-- Modelled from the spec: the marker text parser's line loop — each
non-blank, non-comment line is split at the first run of whitespace into
a timecode text and a trailing label. -/
def markerTextEntriesAux : Nat → List (List Char) → List RawMarkerEntry
  | _, [] => []
  | n, l :: rest =>
    let t := trimChars l
    if t.isEmpty || isCommentLine t then markerTextEntriesAux (n + 1) rest
    else
      let p := splitFirstSpace t
      ⟨⟨p.1⟩, ⟨p.2⟩, n⟩ :: markerTextEntriesAux (n + 1) rest

/-- Modelled from the spec: the Premiere marker text reader; an input
with no marker lines at all is structurally invalid. -/
def parseMarkerText (text : String) : Except ParseError ParseResult :=
  match markerTextEntriesAux 1 (toLines text) with
  | [] => .error .EmptyOrStructurallyInvalid
  | e :: es => .ok ⟨e :: es, []⟩

/-- Comma-separated fields of one CSV line, each trimmed. -/
def csvFields (l : List Char) : List (List Char) :=
  (splitOnChar ',' l).map trimChars

/-- Position of a named column in the CSV header row. -/
def findColumn (hdr : List (List Char)) (name : List Char) : Option Nat :=
  hdr.findIdx? (fun h => h == name)

/-- Modelled from the spec: the CSV row loop — a row with an unparsable
timecode, or with too few fields to reach the timecode column, is skipped
with a warning; valid rows become raw entries. -/
def csvRows (tcIdx nameIdx : Nat) : Nat → List (List Char) →
    List RawMarkerEntry × List String
  | _, [] => ([], [])
  | n, row :: rest =>
    let p := csvRows tcIdx nameIdx (n + 1) rest
    if isBlankLine row then p
    else
      let fields := csvFields row
      match fields.get? tcIdx with
      | some tc =>
        if isFrameTimecodeToken tc || isDecimalTimecodeToken tc then
          (⟨⟨tc⟩, ⟨(fields.get? nameIdx).getD []⟩, n⟩ :: p.1, p.2)
        else
          (p.1, ⟨"unparsable timecode in row ".data ++ natChars n⟩ :: p.2)
      | none =>
        (p.1, ⟨"missing timecode field in row ".data ++ natChars n⟩ :: p.2)

/-- Modelled from the spec: the Premiere marker CSV reader — the header
must name a timecode column `In` and a label column `Marker Name` (the
concrete header names are a modelling choice; the spec fixes only that
columns are resolved by header name, not by position); a header missing
either column is structurally invalid. -/
def parseMarkerCsv (text : String) : Except ParseError ParseResult :=
  match toLines text with
  | [] => .error .EmptyOrStructurallyInvalid
  | header :: rows =>
    match findColumn (csvFields header) "In".data,
        findColumn (csvFields header) "Marker Name".data with
    | some tcIdx, some nameIdx =>
      .ok ⟨(csvRows tcIdx nameIdx 2 rows).1, (csvRows tcIdx nameIdx 2 rows).2⟩
    | some _, none => .error .EmptyOrStructurallyInvalid
    | none, _ => .error .EmptyOrStructurallyInvalid

/-- Whitespace-run tokenization of an EDL event line. -/
def splitTokens (l : List Char) : List (List Char) :=
  (splitOnChar ' ' (l.map (fun c => if isSpaceChar c then ' ' else c))).filter
    (fun t => !t.isEmpty)

/-- Space join of the free-text comment tokens that become an EDL label. -/
def joinWithSpace : List (List Char) → List Char
  | [] => []
  | [t] => t
  | t :: ts => t ++ ' ' :: joinWithSpace ts

/-- Comment tokens after the last timecode token of an EDL event line. -/
def labelTokens (toks : List (List Char)) : List (List Char) :=
  (toks.reverse.takeWhile (fun t => !isFrameTimecodeToken t)).reverse

/-- Modelled from the spec: the EDL line loop — a line starting with a
numeric event number and carrying a frame timecode is a marker event
whose trailing free text becomes the label; a numeric line without a
recognizable timecode is skipped with a warning; other lines are not
marker events and are ignored. -/
def edlEntriesAux : Nat → List (List Char) → List RawMarkerEntry × List String
  | _, [] => ([], [])
  | n, l :: rest =>
    let p := edlEntriesAux (n + 1) rest
    match splitTokens l with
    | [] => p
    | first :: more =>
      if (digitsToNat first).isSome then
        match more.filter isFrameTimecodeToken with
        | [] => (p.1, ⟨"malformed event line ".data ++ natChars n⟩ :: p.2)
        | tc :: _ => (⟨⟨tc⟩, ⟨joinWithSpace (labelTokens more)⟩, n⟩ :: p.1, p.2)
      else p

/-- Modelled from the spec: the EDL readers (DaVinci and Premiere share
the extraction loop); an input with no marker events at all is
structurally invalid. -/
def parseEdl (text : String) : Except ParseError ParseResult :=
  match (edlEntriesAux 1 (toLines text)).1 with
  | [] => .error .EmptyOrStructurallyInvalid
  | e :: es => .ok ⟨e :: es, (edlEntriesAux 1 (toLines text)).2⟩

/-- Test for a line shaped like `timecode whitespace label`. -/
def isMarkerTextLine (l : List Char) : Bool :=
  !l.isEmpty && !isCommentLine l &&
    (isFrameTimecodeToken (splitFirstSpace l).1 ||
      isDecimalTimecodeToken (splitFirstSpace l).1)

/-- Modelled from the spec: priority-ordered structural detection — an
EDL header line selects the EDL variants, a recognised CSV header selects
CSV, repeated `timecode label` lines select marker text, and otherwise
detection fails closed. -/
def detectFormat (text : String) : Option FormatKind :=
  let ls := (toLines text).map trimChars
  if ls.any (fun l => leadsWith "TITLE:".data l) then
    if ls.any (fun l => leadsWith "FROM CLIP NAME".data l ||
        leadsWith "* FROM CLIP NAME".data l) then
      some .DaVinciResolveEDL
    else some .PremiereEDL
  else
    match toLines text with
    | [] => none
    | header :: _ =>
      let hdr := csvFields header
      if (findColumn hdr "In".data).isSome ∧
          (findColumn hdr "Marker Name".data).isSome then
        some .PremiereMarkerCSV
      else if ls.any isMarkerTextLine then some .PremiereMarkerText
      else none

/-- Modelled from the spec: the parser selected for each detected
format. -/
def parserFor (k : FormatKind) (text : String) : Except ParseError ParseResult :=
  match k with
  | .DaVinciResolveEDL => parseEdl text
  | .PremiereEDL => parseEdl text
  | .PremiereMarkerText => parseMarkerText text
  | .PremiereMarkerCSV => parseMarkerCsv text

/-- Modelled from the spec: normalizer step 1 — the timecode reader
matching the detected format; marker text carries frame or decimal
timecodes, the other formats carry frame timecodes. -/
def resolveTimecode (k : FormatKind) (frameRate : Nat) (tc : String) :
    Except ParseError Nat :=
  match k with
  | .PremiereMarkerText =>
    match parseFrameTimecode tc frameRate with
    | .ok t => .ok t
    | .error _ => parseDecimalTimecode tc
  | _ => parseFrameTimecode tc frameRate

/-- Modelled from the spec: resolution of every entry's timecode; an
entry whose timecode fails to parse is dropped with a warning. -/
def resolveEntries (k : FormatKind) (frameRate : Nat) :
    List RawMarkerEntry → List ResolvedEntry × List String
  | [] => ([], [])
  | e :: rest =>
    let p := resolveEntries k frameRate rest
    match resolveTimecode k frameRate e.timecodeText with
    | .ok t => (⟨t, e.label, e.sourceLineNumber⟩ :: p.1, p.2)
    | .error _ =>
      (p.1, ⟨"unresolvable timecode in line ".data ++
        natChars e.sourceLineNumber⟩ :: p.2)

/-- Union of the error cases surfaced by the full pipeline. -/
inductive PipelineError
  | parseFailure (e : ParseError)
  | normalizationFailure (e : NormalizationError)
  | renderFailure (e : FormatError)
deriving DecidableEq

/-- Modelled from the spec: the data flow up to the canonical chapter
list — detection, parsing, timecode resolution and normalization. -/
def pipelineChapters (frameRate : Nat) (text : String) :
    Except PipelineError ChapterList :=
  match detectFormat text with
  | none => .error (.parseFailure .UnrecognizedFormat)
  | some k =>
    match parserFor k text with
    | .error e => .error (.parseFailure e)
    | .ok pr =>
      match normalizeEntries (resolveEntries k frameRate pr.entries).1 with
      | .error e => .error (.normalizationFailure e)
      | .ok L => .ok L

/-- Modelled from the spec: the full pipeline
`render(normalize(parse(text)))`. -/
def pipeline (frameRate : Nat) (text : String) : Except PipelineError String :=
  match pipelineChapters frameRate text with
  | .error e => .error e
  | .ok L =>
    match render L with
    | .error e => .error (.renderFailure e)
    | .ok out => .ok out

/-! ## QR reader module (embedded from `src/qr-reader/qr-scanner.js`) -/

/-- Kind of a top-level lexical binding in an ES module. -/
inductive DeclKind
  | importBinding
  | constBinding
  | letBinding
  | functionDecl
deriving DecidableEq

/-- One top-level lexically declared binding of an ES module, with the
line it is declared on. -/
structure TopLevelDecl where
  name : String
  kind : DeclKind
  line : Nat
deriving DecidableEq

/-- Top-level lexical declarations of `src/qr-reader/qr-scanner.js`,
transcribed in file order.  Lines 1 to 274 are the html5-qrcode
implementation, lines 276 to 488 the jsQR implementation. -/
def qrScannerDecls : List TopLevelDecl := [
  ⟨"initDarkMode", .importBinding, 6⟩,
  ⟨"DEBUG", .constBinding, 9⟩,
  ⟨"Html5Qrcode", .letBinding, 12⟩,
  ⟨"loadHtml5Qrcode", .functionDecl, 15⟩,
  ⟨"cameraButton", .constBinding, 36⟩,
  ⟨"fileButton", .constBinding, 37⟩,
  ⟨"fileInput", .constBinding, 38⟩,
  ⟨"cameraSection", .constBinding, 39⟩,
  ⟨"stopCameraButton", .constBinding, 40⟩,
  ⟨"resultSection", .constBinding, 41⟩,
  ⟨"resultText", .constBinding, 42⟩,
  ⟨"copyButton", .constBinding, 43⟩,
  ⟨"message", .constBinding, 44⟩,
  ⟨"html5QrCode", .letBinding, 47⟩,
  ⟨"isScanning", .letBinding, 48⟩,
  ⟨"showMessage", .functionDecl, 55⟩,
  ⟨"displayResult", .functionDecl, 70⟩,
  ⟨"startCamera", .functionDecl, 95⟩,
  ⟨"stopCamera", .functionDecl, 156⟩,
  ⟨"scanFromFile", .functionDecl, 174⟩,
  ⟨"copyToClipboard", .functionDecl, 211⟩,
  ⟨"initDarkMode", .importBinding, 281⟩,
  ⟨"jsQR", .constBinding, 284⟩,
  ⟨"cameraButton", .constBinding, 287⟩,
  ⟨"fileButton", .constBinding, 288⟩,
  ⟨"fileInput", .constBinding, 289⟩,
  ⟨"cameraSection", .constBinding, 290⟩,
  ⟨"video", .constBinding, 291⟩,
  ⟨"canvas", .constBinding, 292⟩,
  ⟨"stopCameraButton", .constBinding, 293⟩,
  ⟨"resultSection", .constBinding, 294⟩,
  ⟨"resultText", .constBinding, 295⟩,
  ⟨"copyButton", .constBinding, 296⟩,
  ⟨"message", .constBinding, 297⟩,
  ⟨"stream", .letBinding, 299⟩,
  ⟨"scanningInterval", .letBinding, 300⟩,
  ⟨"showMessage", .functionDecl, 307⟩,
  ⟨"displayResult", .functionDecl, 322⟩,
  ⟨"startCamera", .functionDecl, 331⟩,
  ⟨"stopCamera", .functionDecl, 366⟩,
  ⟨"startScanning", .functionDecl, 384⟩,
  ⟨"scanFromFile", .functionDecl, 408⟩,
  ⟨"copyToClipboard", .functionDecl, 449⟩]

/-- Lexically declared names of a module, in declaration order. -/
def lexicalNames (ds : List TopLevelDecl) : List String :=
  ds.map TopLevelDecl.name

/-- Test for a duplicated element in a list of names. -/
def hasDuplicate : List String → Bool
  | [] => false
  | x :: xs => xs.contains x || hasDuplicate xs

/-- Modelled from ECMAScript module semantics, which the spec's
environment assumes: a module whose lexically declared names contain a
duplicate fails with an early `SyntaxError`, before any statement of the
module body is evaluated. -/
def moduleEvaluates (ds : List TopLevelDecl) : Bool :=
  !hasDuplicate (lexicalNames ds)

/-- Modelled from ECMAScript module semantics: the operations a module
offers are reachable only when the module body evaluates at all. -/
def reachableOperations (ds : List TopLevelDecl) (ops : List String) :
    List String :=
  if moduleEvaluates ds then ops else []

/-- Declaration lines carrying a given name. -/
def declLines (ds : List TopLevelDecl) (n : String) : List Nat :=
  (ds.filter (fun d => d.name == n)).map TopLevelDecl.line

/-! ### Console behaviour of the two scanner implementations -/

/-- Severity of a console write. -/
inductive ConsoleLevel
  | logLevel
  | errorLevel
deriving DecidableEq

/-- One console write, identified by severity and by the constant first
argument of the call in the source. -/
structure ConsoleWrite where
  level : ConsoleLevel
  tag : String
deriving DecidableEq

/-- Embedded from line 9 of `qr-scanner.js`: `const DEBUG = false`. -/
def DEBUG : Bool := false

/-- Console writes of a `if (DEBUG) console....` statement. -/
def debugOnly (debug : Bool) (w : ConsoleWrite) : List ConsoleWrite :=
  if debug then [w] else []

/-- Runtime outcome of a camera start attempt. -/
inductive CameraOutcome
  | started
  | failed (errName : String)
deriving DecidableEq

/-- Runtime outcome of a file scan attempt. -/
inductive FileScanOutcome
  | notAnImage
  | decoded (domMissing : Bool)
  | noCodeFound
  | failed
deriving DecidableEq

/-- Embedded from lines 70 to 90: console writes of the first
implementation's `displayResult`, which logs the decoded data and an
error about missing DOM nodes only under `DEBUG`. -/
def displayResultFst (debug : Bool) (domMissing : Bool) : List ConsoleWrite :=
  debugOnly debug ⟨.logLevel, "QRコード読み取り成功:"⟩ ++
    if domMissing then debugOnly debug ⟨.errorLevel, "DOM要素が見つかりません"⟩
    else []

/-- Embedded from lines 95 to 151: console writes of the first
implementation's `startCamera`; both the success log and the catch-branch
error are guarded by `DEBUG`. -/
def startCameraFst (debug : Bool) (o : CameraOutcome) : List ConsoleWrite :=
  match o with
  | .started => debugOnly debug ⟨.logLevel, "カメラスキャン開始"⟩
  | .failed _ => debugOnly debug ⟨.errorLevel, "カメラエラー:"⟩

/-- Embedded from lines 156 to 168: console writes of the first
implementation's `stopCamera`. -/
def stopCameraFst (debug : Bool) (scanning stopFails : Bool) : List ConsoleWrite :=
  if scanning then
    if stopFails then debugOnly debug ⟨.errorLevel, "カメラ停止エラー:"⟩
    else debugOnly debug ⟨.logLevel, "カメラ停止"⟩
  else []

/-- Embedded from lines 174 to 206: console writes of the first
implementation's `scanFromFile`, including the nested `displayResult`
call on the decode path. -/
def scanFromFileFst (debug : Bool) (o : FileScanOutcome) : List ConsoleWrite :=
  match o with
  | .notAnImage => []
  | .decoded domMissing =>
    debugOnly debug ⟨.logLevel, "ファイルからQRコード検出:"⟩ ++
      displayResultFst debug domMissing
  | .noCodeFound => debugOnly debug ⟨.errorLevel, "ファイル読み取りエラー:"⟩
  | .failed => debugOnly debug ⟨.errorLevel, "ファイル読み取りエラー:"⟩

/-- Embedded from lines 211 to 232: console writes of the first
implementation's `copyToClipboard`; only the clipboard-API catch branch
can write, and only under `DEBUG`. -/
def copyToClipboardFst (debug : Bool) (clipboardFails : Bool) : List ConsoleWrite :=
  if clipboardFails then debugOnly debug ⟨.errorLevel, "コピーエラー:"⟩ else []

/-- Embedded from lines 251 to 274: console writes of the first
implementation's `init` function. -/
def initFst (debug : Bool) (loadFails darkFails : Bool) : List ConsoleWrite :=
  debugOnly debug ⟨.logLevel, "QRコード読み取りツール初期化開始"⟩ ++
    (if loadFails then
        debugOnly debug ⟨.errorLevel, "html5-qrcodeライブラリの読み込みエラー:"⟩
      else debugOnly debug ⟨.logLevel, "html5-qrcodeライブラリを読み込みました:"⟩) ++
    (if darkFails then debugOnly debug ⟨.errorLevel, "ダークモード初期化エラー:"⟩
      else debugOnly debug ⟨.logLevel, "ダークモード初期化完了"⟩) ++
    debugOnly debug ⟨.logLevel, "初期化処理完了"⟩

/-- Embedded from lines 331 to 361: console writes of the second
implementation's `startCamera`; the catch branch calls `console.error`
unconditionally. -/
def startCameraSnd (o : CameraOutcome) : List ConsoleWrite :=
  match o with
  | .started => []
  | .failed _ => [⟨.errorLevel, "カメラエラー:"⟩]

/-- Embedded from lines 408 to 444: console writes of the second
implementation's `scanFromFile`; the catch branch calls `console.error`
unconditionally. -/
def scanFromFileSnd (o : FileScanOutcome) : List ConsoleWrite :=
  match o with
  | .notAnImage => []
  | .decoded _ => []
  | .noCodeFound => []
  | .failed => [⟨.errorLevel, "ファイル読み取りエラー:"⟩]

/-- Embedded from lines 449 to 470: console writes of the second
implementation's `copyToClipboard`; the catch branch calls
`console.error` unconditionally. -/
def copyToClipboardSnd (clipboardFails : Bool) : List ConsoleWrite :=
  if clipboardFails then [⟨.errorLevel, "コピーエラー:"⟩] else []

/-- Seconds denoted by the `HH:MM:SS` timecode text that opens a rendered
output line, used to state the ordering of rendered lines. -/
def lineTimecodeSecs (line : List Char) : Option Nat :=
  match splitOnChar ':' (splitFirstSpace line).1 with
  | [hs, ms, ss] =>
    match digitsToNat hs, digitsToNat ms, digitsToNat ss with
    | some h, some m, some s => some (h * 3600 + m * 60 + s)
    | _, _, _ => none
  | _ => none

/-- Timecodes of the lines of a rendered output, in seconds. -/
def outputLineTimes (out : String) : List Nat :=
  (splitOnChar '\n' out.data).filterMap lineTimecodeSecs

/-! ## Lemmas on the ordering machinery -/

theorem sortByTime_sorted {α : Type} (time : α → Nat) (l : List α) :
    List.Sorted (timeLE time) (sortByTime time l) :=
  List.sorted_insertionSort _ l

theorem sortByTime_eq_of_sorted {α : Type} {time : α → Nat} {l : List α}
    (h : List.Sorted (timeLE time) l) : sortByTime time l = l :=
  h.insertionSort_eq

theorem applyTimeOrigin_sorted {α : Type} {time : α → Nat} {sub : α → Nat → α}
    (htime : ∀ x o, time (sub x o) = time x - o) {l : List α}
    (h : List.Sorted (timeLE time) l) :
    List.Sorted (timeLE time) (applyTimeOrigin time sub l) := by
  cases l with
  | nil => exact List.sorted_nil
  | cons c rest =>
    rw [applyTimeOrigin]
    refine List.pairwise_map.mpr (h.imp ?_)
    intro a b hab
    show time (sub a (time c)) ≤ time (sub b (time c))
    rw [htime, htime]
    exact Nat.sub_le_sub_right hab _

theorem applyTimeOrigin_noop {α : Type} {time : α → Nat} {sub : α → Nat → α}
    (hzero : ∀ x, sub x 0 = x) (c : α) (rest : List α) (h : time c = 0) :
    applyTimeOrigin time sub (c :: rest) = c :: rest := by
  rw [applyTimeOrigin, h]
  simp [hzero]

theorem dedupByTimeAux_sublist {α : Type} (time : α → Nat) (kept : List Nat)
    (l : List α) : (dedupByTimeAux time kept l).Sublist l := by
  induction l generalizing kept with
  | nil => simp [dedupByTimeAux]
  | cons c rest ih =>
    rw [dedupByTimeAux]
    split
    · exact (ih kept).cons c
    · exact (ih _).cons₂ c

theorem dedupByTimeAux_not_kept {α : Type} (time : α → Nat) (kept : List Nat)
    (l : List α) : ∀ x ∈ dedupByTimeAux time kept l, time x ∉ kept := by
  induction l generalizing kept with
  | nil => intro x hx; simp [dedupByTimeAux] at hx
  | cons c rest ih =>
    intro x hx
    rw [dedupByTimeAux] at hx
    split at hx
    · exact ih kept x hx
    · rcases List.mem_cons.mp hx with rfl | hmem
      · assumption
      · have := ih (time c :: kept) x hmem
        exact fun hk => this (List.mem_cons_of_mem _ hk)

theorem dedupByTimeAux_pairwise_ne {α : Type} (time : α → Nat)
    (kept : List Nat) (l : List α) :
    (dedupByTimeAux time kept l).Pairwise (fun a b => time a ≠ time b) := by
  induction l generalizing kept with
  | nil => simp [dedupByTimeAux]
  | cons c rest ih =>
    rw [dedupByTimeAux]
    split
    · exact ih kept
    · refine List.Pairwise.cons ?_ (ih _)
      intro b hb
      have hbk := dedupByTimeAux_not_kept time (time c :: kept) rest b hb
      intro he
      exact hbk (he ▸ List.mem_cons_self _ _)

theorem dedupByTimeAux_eq_self {α : Type} (time : α → Nat) {kept : List Nat}
    {l : List α} (hl : l.Pairwise (fun a b => time a ≠ time b))
    (hk : ∀ x ∈ l, time x ∉ kept) :
    dedupByTimeAux time kept l = l := by
  induction l generalizing kept with
  | nil => rfl
  | cons c rest ih =>
    rw [dedupByTimeAux, if_neg (hk c (List.mem_cons_self _ _))]
    congr 1
    refine ih (List.pairwise_cons.mp hl).2 ?_
    intro x hx hmem
    rcases List.mem_cons.mp hmem with he | hkept
    · exact (List.pairwise_cons.mp hl).1 x hx he.symm
    · exact hk x (List.mem_cons_of_mem _ hx) hkept

theorem normalizePass_sorted {α : Type} (time : α → Nat) (sub : α → Nat → α)
    (htime : ∀ x o, time (sub x o) = time x - o) (l : List α) :
    List.Sorted (timeLE time) (normalizePass time sub l) :=
  (applyTimeOrigin_sorted htime (sortByTime_sorted time l)).sublist
    (dedupByTimeAux_sublist time [] _)

theorem normalizePass_pairwise_ne {α : Type} (time : α → Nat)
    (sub : α → Nat → α) (l : List α) :
    (normalizePass time sub l).Pairwise (fun a b => time a ≠ time b) :=
  dedupByTimeAux_pairwise_ne time [] _

theorem normalizePass_head_time {α : Type} (time : α → Nat) (sub : α → Nat → α)
    (htime : ∀ x o, time (sub x o) = time x - o) (l : List α) :
    ∀ c rest, normalizePass time sub l = c :: rest → time c = 0 := by
  intro c rest h
  unfold normalizePass dedupByTime at h
  cases hs : sortByTime time l with
  | nil => rw [hs] at h; cases h
  | cons e sr =>
    rw [hs, applyTimeOrigin, List.map_cons, dedupByTimeAux,
      if_neg (List.not_mem_nil _)] at h
    cases h
    rw [htime, Nat.sub_self]

theorem normalizePass_pairwise_lt {α : Type} (time : α → Nat)
    (sub : α → Nat → α) (htime : ∀ x o, time (sub x o) = time x - o)
    (l : List α) :
    (normalizePass time sub l).Pairwise (fun a b => time a < time b) := by
  have hs := normalizePass_sorted time sub htime l
  have hn := normalizePass_pairwise_ne time sub l
  exact (hs.and hn).imp fun hab => Nat.lt_of_le_of_ne hab.1 hab.2

theorem assignChapters_times (i : Nat) (l : List ResolvedEntry) :
    (assignChapters i l).map Chapter.startTimeMs = l.map ResolvedEntry.timeMs := by
  induction l generalizing i with
  | nil => rfl
  | cons e rest ih => simp [assignChapters, ih]

theorem normalizeEntries_ok {entries : List ResolvedEntry} {L : ChapterList}
    (h : normalizeEntries entries = .ok L) :
    ∃ e rest, normalizeCore entries = e :: rest ∧
      L = assignChapters 1 (e :: rest) ∧ e.timeMs = 0 ∧
      List.Pairwise chLT L := by
  unfold normalizeEntries at h
  cases hnc : normalizeCore entries with
  | nil => rw [hnc] at h; cases h
  | cons e rest =>
    rw [hnc] at h
    cases h
    refine ⟨e, rest, rfl, rfl, ?_, ?_⟩
    · exact normalizePass_head_time ResolvedEntry.timeMs entrySub
        (fun _ _ => rfl) entries e rest hnc
    · have hlt := normalizePass_pairwise_lt ResolvedEntry.timeMs entrySub
        (fun _ _ => rfl) entries
      rw [show normalizePass ResolvedEntry.timeMs entrySub entries =
        normalizeCore entries from rfl, hnc] at hlt
      have hmap : ((assignChapters 1 (e :: rest)).map
          Chapter.startTimeMs).Pairwise (· < ·) := by
        rw [assignChapters_times]
        exact List.pairwise_map.mpr hlt
      have hback := List.pairwise_map.mp hmap
      exact hback

theorem render_ok {L : ChapterList} {out : String} (h : render L = .ok out) :
    2 ≤ L.length ∧ out = joinLines (L.map renderLine) := by
  unfold render at h
  split at h
  next => cases h
  next hcond => cases h; exact ⟨Nat.le_of_not_lt hcond, rfl⟩

theorem pipeline_ok {frameRate : Nat} {text out : String}
    (h : pipeline frameRate text = .ok out) :
    ∃ L, pipelineChapters frameRate text = .ok L ∧ render L = .ok out := by
  unfold pipeline at h
  split at h
  next => cases h
  next L heq =>
    split at h
    next => cases h
    next s heq2 => cases h; exact ⟨L, heq, heq2⟩

theorem pipelineChapters_ok {frameRate : Nat} {text : String} {L : ChapterList}
    (h : pipelineChapters frameRate text = .ok L) :
    ∃ k pr, detectFormat text = some k ∧ parserFor k text = .ok pr ∧
      normalizeEntries (resolveEntries k frameRate pr.entries).1 = .ok L := by
  unfold pipelineChapters at h
  split at h
  next => cases h
  next k heq =>
    split at h
    next => cases h
    next pr heq2 =>
      split at h
      next => cases h
      next L2 heq3 => cases h; exact ⟨k, pr, heq, heq2, heq3⟩

theorem renderLine_zero (c : Chapter) (h : c.startTimeMs = 0) :
    renderLine c = "00:00:00 " ++ c.label := by
  cases c with
  | mk i t lbl =>
    cases lbl with
    | mk chars =>
      cases h
      show (⟨(toDisplayString 0).data ++ ' ' :: chars⟩ : String) =
        "00:00:00 " ++ (⟨chars⟩ : String)
      rw [show ("00:00:00 " : String) =
        ⟨['0', '0', ':', '0', '0', ':', '0', '0', ' ']⟩ from rfl]
      rfl

theorem normalizePass_idem {α : Type} (time : α → Nat) (sub : α → Nat → α)
    (htime : ∀ x o, time (sub x o) = time x - o) (hzero : ∀ x, sub x 0 = x)
    (l : List α) :
    normalizePass time sub (normalizePass time sub l) =
      normalizePass time sub l := by
  have hs := normalizePass_sorted time sub htime l
  have hn := normalizePass_pairwise_ne time sub l
  have hh := normalizePass_head_time time sub htime l
  conv =>
    lhs
    rw [normalizePass, sortByTime_eq_of_sorted hs]
  cases hN : normalizePass time sub l with
  | nil => rfl
  | cons c rest =>
    rw [applyTimeOrigin_noop hzero c rest (hh c rest hN)]
    rw [hN] at hn
    exact dedupByTimeAux_eq_self time hn (fun x _ => List.not_mem_nil _)

/-! ## Claim C2 -/

/-- C2: during normalization, after the entries are sorted by resolved
time, the offset equal to the first entry's time is subtracted from every
entry's time, so raw input times `[2000, 7000, 15000]` normalize to
chapter times `[0, 5000, 13000]`; if the first entry's time is already 0
the correction changes no entry. -/
theorem normalize_time_origin_correction :
    (∀ (entries : List ResolvedEntry) (c : ResolvedEntry)
        (rest : List ResolvedEntry),
      sortByTime ResolvedEntry.timeMs entries = c :: rest →
      (applyTimeOrigin ResolvedEntry.timeMs entrySub
          (sortByTime ResolvedEntry.timeMs entries)).map ResolvedEntry.timeMs =
        (c :: rest).map (fun e => e.timeMs - c.timeMs)) ∧
    (∀ (entries : List ResolvedEntry) (c : ResolvedEntry)
        (rest : List ResolvedEntry),
      sortByTime ResolvedEntry.timeMs entries = c :: rest → c.timeMs = 0 →
      applyTimeOrigin ResolvedEntry.timeMs entrySub
          (sortByTime ResolvedEntry.timeMs entries) =
        sortByTime ResolvedEntry.timeMs entries) ∧
    (∃ L, normalizeEntries [⟨2000, "a", 1⟩, ⟨7000, "b", 2⟩, ⟨15000, "c", 3⟩] =
        .ok L ∧ L.map Chapter.startTimeMs = [0, 5000, 13000]) := by
  refine ⟨?_, ?_, ⟨[⟨1, 0, "a"⟩, ⟨2, 5000, "b"⟩, ⟨3, 13000, "c"⟩],
    by decide, by decide⟩⟩
  · intro entries c rest hs
    rw [hs, applyTimeOrigin, List.map_map]
    rfl
  · intro entries c rest hs h0
    rw [hs]
    exact applyTimeOrigin_noop (fun _ => rfl) c rest h0

/-- Witness for C2: a concrete unsorted input whose sorted form starts at
2000 ms is corrected to times `[0, 5000]`. -/
theorem normalize_time_origin_correction_witness :
    (applyTimeOrigin ResolvedEntry.timeMs entrySub
        (sortByTime ResolvedEntry.timeMs
          [⟨7000, "b", 2⟩, ⟨2000, "a", 1⟩])).map ResolvedEntry.timeMs =
      [0, 5000] := by
  have h := normalize_time_origin_correction.1
    [⟨7000, "b", 2⟩, ⟨2000, "a", 1⟩] ⟨2000, "a", 1⟩ [⟨7000, "b", 2⟩] (by decide)
  rw [h]
  decide

/-! ## Claim C4 -/

/-- C4: the normalize operation, which re-runs deduplication, re-sort and
re-zeroing, is idempotent on every chapter list. -/
theorem normalizeOp_idempotent (L : ChapterList) :
    normalizeOp (normalizeOp L) = normalizeOp L :=
  normalizePass_idem Chapter.startTimeMs chapterSub (fun _ _ => rfl)
    (fun _ => rfl) L

/-! ## Claim C5 -/

/-- C5: during normalization, whenever two entries have equal times at
exact millisecond precision, only the first in sort order is kept and the
later duplicate is dropped with its label discarded; two raw entries both
resolving to 3000 ms yield exactly one chapter at 3000 ms carrying the
first entry's label. -/
theorem normalize_dedup_first_wins :
    (∀ (kept : List Nat) (e1 e2 : ResolvedEntry) (rest : List ResolvedEntry),
      e1.timeMs ∉ kept → e2.timeMs = e1.timeMs →
      dedupByTimeAux ResolvedEntry.timeMs kept (e1 :: e2 :: rest) =
        dedupByTimeAux ResolvedEntry.timeMs kept (e1 :: rest)) ∧
    (∃ L, normalizeEntries [⟨0, "Start", 1⟩, ⟨3000, "A", 2⟩, ⟨3000, "B", 3⟩] =
        .ok L ∧ L = [⟨1, 0, "Start"⟩, ⟨2, 3000, "A"⟩]) := by
  refine ⟨?_, ⟨[⟨1, 0, "Start"⟩, ⟨2, 3000, "A"⟩], by decide, rfl⟩⟩
  intro kept e1 e2 rest h1 h2
  have step1 : dedupByTimeAux ResolvedEntry.timeMs kept (e1 :: e2 :: rest) =
      e1 :: dedupByTimeAux ResolvedEntry.timeMs (e1.timeMs :: kept)
        (e2 :: rest) := by
    rw [dedupByTimeAux, if_neg h1]
  have step2 : dedupByTimeAux ResolvedEntry.timeMs (e1.timeMs :: kept)
      (e2 :: rest) =
      dedupByTimeAux ResolvedEntry.timeMs (e1.timeMs :: kept) rest := by
    rw [dedupByTimeAux, if_pos (by rw [h2]; exact List.mem_cons_self _ _)]
  have step3 : dedupByTimeAux ResolvedEntry.timeMs kept (e1 :: rest) =
      e1 :: dedupByTimeAux ResolvedEntry.timeMs (e1.timeMs :: kept) rest := by
    rw [dedupByTimeAux, if_neg h1]
  rw [step1, step2, step3]

/-- Witness for C5: dropping the later of two concrete entries at equal
times. -/
theorem normalize_dedup_first_wins_witness :
    dedupByTimeAux ResolvedEntry.timeMs [] [⟨3000, "A", 2⟩, ⟨3000, "B", 3⟩] =
      dedupByTimeAux ResolvedEntry.timeMs [] [⟨3000, "A", 2⟩] :=
  normalize_dedup_first_wins.1 [] ⟨3000, "A", 2⟩ ⟨3000, "B", 3⟩ []
    (List.not_mem_nil _) rfl

/-! ## Claim C6 -/

/-- C6: for a chapter list with start times `[0, 5000, 12000]` and labels
`["Intro", "Body", "Outro"]`, `render` returns the newline-joined
`toDisplayString` lines, with 5000 ms displayed as `00:00:05`, 12000 ms
as `00:00:12`, and the sub-second remainder truncated. -/
theorem render_concrete_roundtrip :
    render [⟨1, 0, "Intro"⟩, ⟨2, 5000, "Body"⟩, ⟨3, 12000, "Outro"⟩] =
      .ok "00:00:00 Intro\n00:00:05 Body\n00:00:12 Outro" ∧
    toDisplayString 5000 = "00:00:05" ∧
    toDisplayString 12000 = "00:00:12" ∧
    toDisplayString 5999 = "00:00:05" ∧
    renderLine ⟨1, 0, "Intro"⟩ = "00:00:00 Intro" := by
  decide

/-! ## Claim C1 -/

/-- C1 counterexample: a well-formed marker text input whose two chapters
are one frame apart renders successfully, yet the `HH:MM:SS` timecodes of
the two output lines are equal after sub-second truncation, so the lines'
displayed timecodes are not strictly ascending. -/
theorem pipeline_displayed_timecodes_can_tie :
    pipeline 30 "00:00:00:00 A\n00:00:00:01 B" = .ok "00:00:00 A\n00:00:00 B" ∧
    outputLineTimes "00:00:00 A\n00:00:00 B" = [0, 0] ∧
    ¬ (outputLineTimes "00:00:00 A\n00:00:00 B").Pairwise (· < ·) := by
  refine ⟨by decide, by decide, ?_⟩
  rw [show outputLineTimes "00:00:00 A\n00:00:00 B" = [0, 0] from by decide]
  decide

/-- C1 (amended): for every input on which the full pipeline succeeds,
the produced chapters have strictly ascending start times with the first
chapter at exactly 0, the displayed per-second timecodes of the lines are
non-decreasing, and the first line is exactly `00:00:00` followed by a
space and the first chapter's label. -/
theorem pipeline_output_sorted_first_zero {frameRate : Nat} {text out : String}
    (h : pipeline frameRate text = .ok out) :
    ∃ c cs, pipelineChapters frameRate text = .ok (c :: cs) ∧
      c.startTimeMs = 0 ∧
      List.Pairwise chLT (c :: cs) ∧
      (((c :: cs).map Chapter.startTimeMs).map (· / 1000)).Pairwise (· ≤ ·) ∧
      out = joinLines ((c :: cs).map renderLine) ∧
      renderLine c = "00:00:00 " ++ c.label := by
  obtain ⟨L, hpc, hr⟩ := pipeline_ok h
  obtain ⟨hlen, hout⟩ := render_ok hr
  obtain ⟨k, pr, hd, hp, hn⟩ := pipelineChapters_ok hpc
  obtain ⟨e, rest, hnc, hL, hzero, hpw⟩ := normalizeEntries_ok hn
  subst hL
  refine ⟨⟨1, e.timeMs, chapterLabel e.label 1⟩, assignChapters 2 rest,
    hpc, hzero, hpw, ?_, hout, ?_⟩
  · exact List.pairwise_map.mpr (List.pairwise_map.mpr
      (hpw.imp fun hab => Nat.div_le_div_right (Nat.le_of_lt hab)))
  · exact renderLine_zero ⟨1, e.timeMs, chapterLabel e.label 1⟩ hzero

/-- Witness for C1: the amended statement instantiated on a concrete
two-chapter marker text input. -/
theorem pipeline_output_sorted_first_zero_witness :
    ∃ c cs, pipelineChapters 30 "00:00:00:00 A\n00:00:10:00 B" =
        .ok (c :: cs) ∧
      c.startTimeMs = 0 ∧
      List.Pairwise chLT (c :: cs) ∧
      (((c :: cs).map Chapter.startTimeMs).map (· / 1000)).Pairwise (· ≤ ·) ∧
      "00:00:00 A\n00:00:10 B" = joinLines ((c :: cs).map renderLine) ∧
      renderLine c = "00:00:00 " ++ c.label :=
  @pipeline_output_sorted_first_zero 30 "00:00:00:00 A\n00:00:10:00 B"
    "00:00:00 A\n00:00:10 B" (by decide)

/-! ## Claim C3 -/

theorem orderedInsert_pairwise_lt (c : Chapter) (L : List Chapter)
    (h : L.Pairwise chLT) (hne : ∀ d ∈ L, d.startTimeMs ≠ c.startTimeMs) :
    (List.orderedInsert (timeLE Chapter.startTimeMs) c L).Pairwise chLT := by
  induction L with
  | nil => simp [List.orderedInsert, List.Pairwise.nil]
  | cons d rest ih =>
    rw [List.orderedInsert]
    split
    next hle =>
      refine List.Pairwise.cons ?_ h
      intro b hb
      rcases List.mem_cons.mp hb with rfl | hmem
      · exact Nat.lt_of_le_of_ne hle
          (fun he => hne b (List.mem_cons_self _ _) he.symm)
      · exact Nat.lt_of_le_of_lt hle
          ((List.pairwise_cons.mp h).1 b hmem)
    next hnle =>
      refine List.Pairwise.cons ?_
        (ih (List.pairwise_cons.mp h).2
          (fun x hx => hne x (List.mem_cons_of_mem _ hx)))
      intro b hb
      rcases (List.mem_orderedInsert _).mp hb with rfl | hmem
      · exact Nat.lt_of_not_le hnle
      · exact (List.pairwise_cons.mp h).1 b hmem

/-- C3: `add` at a start time already present fails with `DuplicateTime`
and leaves the chapter list unchanged; `add` at a fresh time returns a
chapter with the requested time and label, inserted at its sorted
position — the result is a permutation of consing the new chapter, and
strict sortedness is preserved. -/
theorem add_duplicate_rejected_and_sorted_insert :
    (∀ (L : ChapterList) (t : Nat) (lbl : String),
      (∃ c ∈ L, c.startTimeMs = t) →
      (add L t lbl).1 = .error .DuplicateTime ∧ (add L t lbl).2 = L) ∧
    (∀ (L : ChapterList) (t : Nat) (lbl : String),
      (∀ c ∈ L, c.startTimeMs ≠ t) →
      ∃ ch, (add L t lbl).1 = .ok ch ∧ ch.startTimeMs = t ∧ ch.label = lbl ∧
        (add L t lbl).2 =
          List.orderedInsert (timeLE Chapter.startTimeMs) ch L ∧
        (add L t lbl).2.Perm (ch :: L) ∧
        (L.Pairwise chLT → (add L t lbl).2.Pairwise chLT)) := by
  constructor
  · rintro L t lbl ⟨c, hc, he⟩
    have hht : hasTime L t = true := by
      unfold hasTime
      exact List.any_eq_true.mpr ⟨c, hc, by simp [he]⟩
    unfold add
    rw [if_pos hht]
    exact ⟨rfl, rfl⟩
  · intro L t lbl hne
    have hht : hasTime L t = false := by
      cases hat : hasTime L t
      · rfl
      · exfalso
        unfold hasTime at hat
        obtain ⟨c, hc, he⟩ := List.any_eq_true.mp hat
        exact hne c hc (by simpa using he)
    unfold add
    rw [if_neg (by simp [hht])]
    refine ⟨⟨freshId L, t, lbl⟩, rfl, rfl, rfl, rfl, ?_, ?_⟩
    · exact List.perm_orderedInsert (timeLE Chapter.startTimeMs) _ L
    · intro hpw
      exact orderedInsert_pairwise_lt _ L hpw hne

/-- Witness for C3: a concrete duplicate rejection at 5000 ms and a
concrete sorted insertion at 7000 ms. -/
theorem add_duplicate_rejected_and_sorted_insert_witness :
    ((add [⟨1, 0, "Intro"⟩, ⟨2, 5000, "Body"⟩] 5000 "X").1 =
        .error .DuplicateTime ∧
      (add [⟨1, 0, "Intro"⟩, ⟨2, 5000, "Body"⟩] 5000 "X").2 =
        [⟨1, 0, "Intro"⟩, ⟨2, 5000, "Body"⟩]) ∧
    (∃ ch, (add [⟨1, 0, "Intro"⟩, ⟨2, 5000, "Body"⟩] 7000 "New").1 = .ok ch ∧
      ch.startTimeMs = 7000 ∧ ch.label = "New" ∧
      (add [⟨1, 0, "Intro"⟩, ⟨2, 5000, "Body"⟩] 7000 "New").2 =
        List.orderedInsert (timeLE Chapter.startTimeMs) ch
          [⟨1, 0, "Intro"⟩, ⟨2, 5000, "Body"⟩] ∧
      (add [⟨1, 0, "Intro"⟩, ⟨2, 5000, "Body"⟩] 7000 "New").2.Perm
        (ch :: [⟨1, 0, "Intro"⟩, ⟨2, 5000, "Body"⟩]) ∧
      (([⟨1, 0, "Intro"⟩, ⟨2, 5000, "Body"⟩] :
          ChapterList).Pairwise chLT →
        (add [⟨1, 0, "Intro"⟩, ⟨2, 5000, "Body"⟩] 7000 "New").2.Pairwise
          chLT)) :=
  ⟨add_duplicate_rejected_and_sorted_insert.1
      [⟨1, 0, "Intro"⟩, ⟨2, 5000, "Body"⟩] 5000 "X"
      ⟨⟨2, 5000, "Body"⟩, by decide, rfl⟩,
    add_duplicate_rejected_and_sorted_insert.2
      [⟨1, 0, "Intro"⟩, ⟨2, 5000, "Body"⟩] 7000 "New" (by decide)⟩

/-! ## Claim C7 -/

/-- C7: `parseFrameTimecode` treats the drop-frame separator identically
to the non-drop separator (any two texts with the same extracted fields
parse identically, and a concrete `;`-form equals its `:`-form), fails
with `InvalidTimecode` whenever the frames field is not below the frame
rate, and on every accepted input returns
`((H*3600 + M*60 + S)*frameRate + F) * 1000 / frameRate` rounded to the
nearest millisecond. -/
theorem parseFrameTimecode_spec :
    (∀ (t1 t2 : String) (h m s f rate : Nat),
      splitTimecodeFields t1.data = some (h, m, s, f) →
      splitTimecodeFields t2.data = some (h, m, s, f) →
      parseFrameTimecode t1 rate = parseFrameTimecode t2 rate) ∧
    (∀ (t : String) (h m s f rate : Nat),
      splitTimecodeFields t.data = some (h, m, s, f) → f < rate →
      parseFrameTimecode t rate =
        .ok (roundedDiv (((h * 3600 + m * 60 + s) * rate + f) * 1000) rate)) ∧
    (∀ (t : String) (h m s f rate : Nat),
      splitTimecodeFields t.data = some (h, m, s, f) → rate ≤ f →
      parseFrameTimecode t rate = .error .InvalidTimecode) ∧
    parseFrameTimecode "01:02:03:10" 30 = parseFrameTimecode "01:02:03;10" 30 ∧
    parseFrameTimecode "00:00:01;15" 30 = .ok 1500 := by
  refine ⟨?_, ?_, ?_, by decide, by decide⟩
  · intro t1 t2 h m s f rate h1 h2
    unfold parseFrameTimecode
    rw [h1, h2]
  · intro t h m s f rate hs hf
    unfold parseFrameTimecode
    rw [hs]
    show (if f < rate then _ else _) = _
    rw [if_pos hf]
    rfl
  · intro t h m s f rate hs hge
    unfold parseFrameTimecode
    rw [hs]
    show (if f < rate then _ else _) = _
    rw [if_neg (Nat.not_lt.mpr hge)]

/-- Witness for C7: the conversion formula on an accepted frame timecode
and the rejection of a frames field equal to the frame rate. -/
theorem parseFrameTimecode_spec_witness :
    parseFrameTimecode "00:00:01:15" 30 =
      .ok (roundedDiv (((0 * 3600 + 0 * 60 + 1) * 30 + 15) * 1000) 30) ∧
    parseFrameTimecode "00:10:00:25" 25 = .error .InvalidTimecode :=
  ⟨parseFrameTimecode_spec.2.1 "00:00:01:15" 0 0 1 15 30 (by decide) (by decide),
    parseFrameTimecode_spec.2.2.1 "00:10:00:25" 0 10 0 25 25 (by decide)
      (by decide)⟩

/-! ## Claim C8 -/

/-- C8: every parser is a total function into an entries-plus-warnings
record whose only total failure is `EmptyOrStructurallyInvalid`; a CSV
input missing the required timecode column fails totally, while a CSV
with one malformed row among ten rows returns nine entries plus one
warning. -/
theorem parser_total_contract :
    (∀ (text : String) (e : ParseError), parseMarkerCsv text = .error e →
      e = .EmptyOrStructurallyInvalid) ∧
    (∀ (text : String) (e : ParseError), parseMarkerText text = .error e →
      e = .EmptyOrStructurallyInvalid) ∧
    (∀ (text : String) (e : ParseError), parseEdl text = .error e →
      e = .EmptyOrStructurallyInvalid) ∧
    parseMarkerCsv "Marker Name,Description,Out\nChap 1,,00:00:05:00" =
      .error .EmptyOrStructurallyInvalid ∧
    (∃ pr, parseMarkerCsv
        ("Marker Name,Description,In,Out\nC1,,00:00:01:00,\nC2,,00:00:02:00,\nC3,,00:00:03:00,\nC4,,badtime,\nC5,,00:00:05:00,\nC6,,00:00:06:00,\nC7,,00:00:07:00,\nC8,,00:00:08:00,\nC9,,00:00:09:00,\nC10,,00:00:10:00,") =
        .ok pr ∧ pr.entries.length = 9 ∧ pr.warnings.length = 1) := by
  refine ⟨?_, ?_, ?_, by decide, ?_⟩
  · intro text e h
    unfold parseMarkerCsv at h
    split at h
    next => cases h; rfl
    next =>
      split at h
      next => cases h
      next => cases h; rfl
      next => cases h; rfl
  · intro text e h
    unfold parseMarkerText at h
    split at h
    next => cases h; rfl
    next => cases h
  · intro text e h
    unfold parseEdl at h
    split at h
    next => cases h; rfl
    next => cases h
  · refine ⟨⟨[⟨"00:00:01:00", "C1", 2⟩, ⟨"00:00:02:00", "C2", 3⟩,
      ⟨"00:00:03:00", "C3", 4⟩, ⟨"00:00:05:00", "C5", 6⟩,
      ⟨"00:00:06:00", "C6", 7⟩, ⟨"00:00:07:00", "C7", 8⟩,
      ⟨"00:00:08:00", "C8", 9⟩, ⟨"00:00:09:00", "C9", 10⟩,
      ⟨"00:00:10:00", "C10", 11⟩],
      [⟨"unparsable timecode in row ".data ++ natChars 5⟩]⟩, by decide, rfl, rfl⟩

/-- Witness for C8: the error-shape contract applied to the empty-header
input. -/
theorem parser_total_contract_witness :
    parseMarkerCsv "" = .error .EmptyOrStructurallyInvalid ∧
    ParseError.EmptyOrStructurallyInvalid = .EmptyOrStructurallyInvalid :=
  ⟨by decide, parser_total_contract.1 "" .EmptyOrStructurallyInvalid (by decide)⟩

/-! ## Claim C9 -/

/-- C9: `src/qr-reader/qr-scanner.js` declares `initDarkMode` twice (at
lines 6 and 281) and each of the nine shared DOM constants twice, so its
lexically declared names contain duplicates, the module fails before any
statement runs, and none of its operations is reachable. -/
theorem qr_scanner_duplicate_bindings :
    declLines qrScannerDecls "initDarkMode" = [6, 281] ∧
    declLines qrScannerDecls "cameraButton" = [36, 287] ∧
    declLines qrScannerDecls "fileButton" = [37, 288] ∧
    declLines qrScannerDecls "fileInput" = [38, 289] ∧
    declLines qrScannerDecls "cameraSection" = [39, 290] ∧
    declLines qrScannerDecls "stopCameraButton" = [40, 293] ∧
    declLines qrScannerDecls "resultSection" = [41, 294] ∧
    declLines qrScannerDecls "resultText" = [42, 295] ∧
    declLines qrScannerDecls "copyButton" = [43, 296] ∧
    declLines qrScannerDecls "message" = [44, 297] ∧
    moduleEvaluates qrScannerDecls = false ∧
    reachableOperations qrScannerDecls
      ["cameraScan", "fileScan", "clipboardCopy"] = [] := by
  decide

/-! ## Claim C10 -/

/-- C10: with the constant `DEBUG = false`, no function of the first
scanner implementation writes to the console on any execution path, while
the second implementation's `startCamera`, `scanFromFile` and
`copyToClipboard` call `console.error` unconditionally in their error
branches. -/
theorem qr_console_silence_under_debug :
    DEBUG = false ∧
    (∀ b : Bool, displayResultFst DEBUG b = []) ∧
    (∀ o : CameraOutcome, startCameraFst DEBUG o = []) ∧
    (∀ b1 b2 : Bool, stopCameraFst DEBUG b1 b2 = []) ∧
    (∀ o : FileScanOutcome, scanFromFileFst DEBUG o = []) ∧
    (∀ b : Bool, copyToClipboardFst DEBUG b = []) ∧
    (∀ b1 b2 : Bool, initFst DEBUG b1 b2 = []) ∧
    (∀ e : String, startCameraSnd (.failed e) =
      [⟨.errorLevel, "カメラエラー:"⟩]) ∧
    scanFromFileSnd .failed = [⟨.errorLevel, "ファイル読み取りエラー:"⟩] ∧
    copyToClipboardSnd true = [⟨.errorLevel, "コピーエラー:"⟩] := by
  refine ⟨rfl, ?_, ?_, ?_, ?_, ?_, ?_, ?_, rfl, rfl⟩
  · intro b; cases b <;> rfl
  · intro o; cases o <;> rfl
  · intro b1 b2; cases b1 <;> cases b2 <;> rfl
  · intro o
    cases o with
    | decoded b => cases b <;> rfl
    | notAnImage => rfl
    | noCodeFound => rfl
    | failed => rfl
  · intro b; cases b <;> rfl
  · intro b1 b2; cases b1 <;> cases b2 <;> rfl
  · intro e; rfl

end Toolkit
